import Mathlib

/-!
Verification of the customs-calculation core of the vehicle customs bot
(`bot.py`, class `CustomsCalculator`).  The pure computational core —
date parsing, age derivation, the 3–5-year duty-rate table, the 2026
recycling-fee table and the orchestrating `calculate_customs` — is
embedded as executable Lean definitions; monetary values use `ℚ`
(exact rational arithmetic in place of Python floats) and Python's
`//` / `%` (floor division for a positive divisor) are `Int./` /
`Int.%` (Euclidean, which agrees with floor for positive divisors).
-/

namespace CustomsBot

/-- A calendar date, as the triple of fields of a Python `datetime.date`.
Python compares dates lexicographically by (year, month, day). -/
structure Date where
  year : Int
  month : Int
  day : Int
  deriving DecidableEq, Repr

/-- Python `date` strict comparison `a < b`: lexicographic on (year, month, day). -/
def dateLt (a b : Date) : Prop :=
  a.year < b.year ∨
    (a.year = b.year ∧ (a.month < b.month ∨ (a.month = b.month ∧ a.day < b.day)))

instance (a b : Date) : Decidable (dateLt a b) := by
  unfold dateLt
  exact inferInstance

/-- Non-strict date order `a ≤ b` (earlier or equal). -/
def dateLe (a b : Date) : Prop :=
  dateLt a b ∨ a = b

instance (a b : Date) : Decidable (dateLe a b) := by
  unfold dateLe
  exact inferInstance

/-! ### Date-string parsing

`datetime.strptime(s, "%Y-%m-%d")` / `datetime.strptime(s, "%d.%m.%Y")`:
the year field is exactly four digits, month and day fields are one or two
digits within their calendar ranges, the whole string must be consumed, and
`datetime` construction validates the day against the month length
(Gregorian leap rule) and requires `year ≥ 1`.  Strings are embedded as
`List Char`. -/

/-- Split a character list on a separator character (like `str.split(sep)`:
every occurrence of the separator starts a new, possibly empty, group). -/
def splitOnChar (sep : Char) : List Char → List (List Char)
  | [] => [[]]
  | c :: cs =>
    match splitOnChar sep cs with
    | [] => [[]]
    | g :: gs => if c = sep then [] :: g :: gs else (c :: g) :: gs

/-- Accumulate the value of a run of decimal digits; `none` on a non-digit. -/
def parseDigitsAux (acc : Nat) : List Char → Option Nat
  | [] => some acc
  | c :: cs =>
    if c.isDigit then parseDigitsAux (acc * 10 + (c.toNat - 48)) cs else none

/-- Parse a non-empty all-digit character list as a natural number. -/
def parseDigits : List Char → Option Nat
  | [] => none
  | c :: cs => parseDigitsAux 0 (c :: cs)

/-- The `%Y` field of `strptime`: exactly four decimal digits. -/
def parseYearField (s : List Char) : Option Int :=
  if s.length = 4 then (parseDigits s).map Int.ofNat else none

/-- A `%m`/`%d` field of `strptime`: one or two decimal digits whose value
lies in `[lo, hi]`. -/
def parseNumField (s : List Char) (lo hi : Nat) : Option Int :=
  if s.length = 1 ∨ s.length = 2 then
    match parseDigits s with
    | some n => if lo ≤ n ∧ n ≤ hi then some (Int.ofNat n) else none
    | none => none
  else none

/-- Gregorian leap-year rule used by Python's `datetime`. -/
def isLeapYear (y : Int) : Bool :=
  y % 4 = 0 && (!(y % 100 = 0) || y % 400 = 0)

/-- Number of days in a month of a given year. -/
def daysInMonth (y m : Int) : Int :=
  if m = 2 then (if isLeapYear y then 29 else 28)
  else if m = 4 ∨ m = 6 ∨ m = 9 ∨ m = 11 then 30
  else 31

/-- `datetime.date(y, m, d)` construction: requires `year ≥ 1` and a day
valid for the month (month range is enforced by the field parser). -/
def mkValidDate (y m d : Int) : Option Date :=
  if 1 ≤ y ∧ 1 ≤ d ∧ d ≤ daysInMonth y m then some ⟨y, m, d⟩ else none

/-- `datetime.strptime(s, "%Y-%m-%d").date()` as a total function. -/
def parse_iso_date (s : List Char) : Option Date :=
  match splitOnChar '-' s with
  | [ys, ms, ds] =>
    match parseYearField ys, parseNumField ms 1 12, parseNumField ds 1 31 with
    | some y, some m, some d => mkValidDate y m d
    | _, _, _ => none
  | _ => none

/-- `datetime.strptime(s, "%d.%m.%Y").date()` as a total function. -/
def parse_dot_date (s : List Char) : Option Date :=
  match splitOnChar '.' s with
  | [ds, ms, ys] =>
    match parseYearField ys, parseNumField ms 1 12, parseNumField ds 1 31 with
    | some y, some m, some d => mkValidDate y m d
    | _, _, _ => none
  | _ => none

/-- The two-format date parse of `calculate_customs` (bot.py lines 186–192)
and `get_manufacture_date` (bot.py lines 471–476): try ISO `YYYY-MM-DD`
first, then `DD.MM.YYYY`; `none` when both `strptime` calls raise. -/
def parse_date (s : List Char) : Option Date :=
  match parse_iso_date s with
  | some d => some d
  | none => parse_dot_date s

/-! ### Exchange rates -/

/-- The exchange-rate table of `CustomsCalculator.__init__` (bot.py
lines 41–46); the dictionary always carries exactly these four keys. -/
structure ExchangeRates where
  usd : ℚ
  cny : ℚ
  eur : ℚ
  krw : ℚ
  deriving DecidableEq, Repr

/-- The default rates: USD 77.0, CNY 11.0, EUR 91.0, KRW 0.052. -/
def default_exchange_rates : ExchangeRates :=
  ⟨77, 11, 91, 52/1000⟩

/-- A currency code: one of the four table keys, or any other string. -/
inductive Currency where
  | USD
  | CNY
  | EUR
  | KRW
  | other (code : List Char)
  deriving DecidableEq, Repr

/-- `self.exchange_rates.get(currency, 1)` (bot.py line 182): a key absent
from the table converts with factor 1. -/
def ratesGet (r : ExchangeRates) : Currency → ℚ
  | .USD => r.usd
  | .CNY => r.cny
  | .EUR => r.eur
  | .KRW => r.krw
  | .other _ => 1

/-! ### Age derivation -/

/-- The month count of `calculate_age` (bot.py lines 91–95):
`(today.year - mfg.year) * 12 + (today.month - mfg.month)`, minus one when
`today.day < mfg.day`. -/
def total_months_between (today mfg : Date) : Int :=
  let t0 := (today.year - mfg.year) * 12 + (today.month - mfg.month)
  if today.day < mfg.day then t0 - 1 else t0

/-- `CustomsCalculator.calculate_age` (bot.py lines 86–108): full years and
residual months, via Python floor division/modulo by 12. -/
def calculate_age (today mfg : Date) : Int × Int :=
  let total_months := total_months_between today mfg
  (total_months / 12, total_months % 12)

/-! ### Duty table for 3–5-year-old vehicles -/

/-- One row of `duty_rates_3_5_years`: a displacement interval
`(minVol, maxVol]` in cm³ (with `none` standing for `float('inf')`) and a
EUR-per-cm³ rate. -/
structure DutyBracket where
  minVol : ℚ
  maxVol : Option ℚ
  rate : ℚ
  deriving DecidableEq, Repr

/-- `self.duty_rates_3_5_years` (bot.py lines 49–56). -/
def duty_rates_3_5_years : List DutyBracket :=
  [⟨0, some 1000, 15/10⟩,
   ⟨1000, some 1500, 17/10⟩,
   ⟨1500, some 1800, 25/10⟩,
   ⟨1800, some 2300, 27/10⟩,
   ⟨2300, some 3000, 3⟩,
   ⟨3000, none, 36/10⟩]

/-- The row condition `min_vol < engine_volume_cm3 <= max_vol`
(bot.py line 113); an infinite upper bound always holds. -/
def volInBracket (x : ℚ) (b : DutyBracket) : Prop :=
  b.minVol < x ∧ (∀ m, b.maxVol = some m → x ≤ m)

instance (x : ℚ) (b : DutyBracket) : Decidable (volInBracket x b) := by
  unfold volInBracket
  exact inferInstance

/-- The scan of `get_duty_for_3_5_years` over a bracket list: first bracket
containing the volume wins; the final `return engine_volume_cm3 * 3.6`
(bot.py line 115) is the empty-list fallback. -/
def duty_scan (x : ℚ) : List DutyBracket → ℚ
  | [] => x * (36/10)
  | b :: rest => if volInBracket x b then x * b.rate else duty_scan x rest

/-- `CustomsCalculator.get_duty_for_3_5_years` (bot.py lines 110–115):
duty in EUR for a displacement in cm³. -/
def get_duty_for_3_5_years (engine_volume_cm3 : ℚ) : ℚ :=
  duty_scan engine_volume_cm3 duty_rates_3_5_years

/-! ### 2026 recycling-fee table -/

/-- A horsepower range key `(minHp, maxHp)`: lower bound inclusive, upper
bound exclusive; `none` stands for `float('inf')`. -/
structure HpRange where
  minHp : Int
  maxHp : Option Int
  deriving DecidableEq, Repr

/-- One entry of a recycling-fee table: a horsepower range and the fee pair
`(fee for age ≤ 3, fee for age > 3)` in RUB. -/
structure FeeEntry where
  range : HpRange
  feeLe3 : Int
  feeGt3 : Int
  deriving DecidableEq, Repr

/-- `min_hp <= hp < max_hp` (bot.py line 154); an infinite upper bound
always holds. -/
def hpInRange (hp : Int) (r : HpRange) : Prop :=
  r.minHp ≤ hp ∧ (∀ m, r.maxHp = some m → hp < m)

instance (hp : Int) (r : HpRange) : Decidable (hpInRange hp r) := by
  unfold hpInRange
  exact inferInstance

/-- `self.recycling_fee_2026['1.0-2.0']` (bot.py lines 60–67), listed in
the ascending key order produced by `sorted(fee_table.keys())`. -/
def recycling_table_1_2 : List FeeEntry :=
  [⟨⟨160, some 190⟩, 900000, 1492800⟩,
   ⟨⟨190, some 220⟩, 952000, 1584000⟩,
   ⟨⟨220, some 250⟩, 1010400, 1677600⟩,
   ⟨⟨250, some 280⟩, 1142400, 1838400⟩,
   ⟨⟨280, some 310⟩, 1291200, 2011200⟩,
   ⟨⟨310, some 340⟩, 1459200, 2203200⟩]

/-- `self.recycling_fee_2026['2.0-3.0']` (bot.py lines 68–79), listed in
the ascending key order produced by `sorted(fee_table.keys())`. -/
def recycling_table_2_3 : List FeeEntry :=
  [⟨⟨160, some 190⟩, 2306800, 3456000⟩,
   ⟨⟨190, some 220⟩, 2364000, 3501600⟩,
   ⟨⟨220, some 250⟩, 2402400, 3552000⟩,
   ⟨⟨250, some 280⟩, 2520000, 3660000⟩,
   ⟨⟨280, some 310⟩, 2620800, 3770400⟩,
   ⟨⟨310, some 340⟩, 2726400, 3873600⟩,
   ⟨⟨340, some 370⟩, 2834400, 3981600⟩,
   ⟨⟨370, some 400⟩, 2949600, 4094400⟩,
   ⟨⟨400, some 500⟩, 3448800, 4572000⟩,
   ⟨⟨500, none⟩, 3448800, 4572000⟩]

/-- The fee chosen from an entry's pair by age (bot.py lines 172–175):
first element when `age_years ≤ 3`, second otherwise. -/
def entry_fee (e : FeeEntry) (age_years : Int) : Int :=
  if age_years ≤ 3 then e.feeLe3 else e.feeGt3

/-- The loop of bot.py lines 151–157: scan the ranges in ascending order
and return the first whose `min_hp <= hp < max_hp` holds. -/
def find_hp_entry (hp : Int) : List FeeEntry → Option FeeEntry
  | [] => none
  | e :: rest => if hpInRange hp e.range then some e else find_hp_entry hp rest

/-- The scan-and-fall-back logic of bot.py lines 139–175 over one fee
table: an empty table yields the warning-logged default (20000 / 30000,
by age); otherwise the first matching horsepower range is used, and a miss
of every range falls back to the last (highest) range of the ascending key
order (`sorted_ranges[-1]`, bot.py lines 160–164; the inner empty-table
default of lines 165–169 is subsumed by the emptiness test). -/
def fee_table_lookup (t : List FeeEntry) (hp age_years : Int) : Int :=
  if h : t = [] then
    if age_years ≤ 3 then 20000 else 30000
  else
    match find_hp_entry hp t with
    | some e => entry_fee e age_years
    | none => entry_fee (t.getLast h) age_years

/-- The general-table part of `get_recycling_fee` (bot.py lines 128–175):
volume ≤ 2.0 selects the '1.0-2.0' table (bot.py line 131), otherwise the
'2.0-3.0' table. -/
def general_recycling_fee (engine_volume_l : ℚ) (hp age_years : Int) : Int :=
  fee_table_lookup
    (if engine_volume_l ≤ 2 then recycling_table_1_2 else recycling_table_2_3)
    hp age_years

/-- Entry `a` lies strictly below entry `b`: `a`'s upper bound is finite
and at most `b`'s lower bound.  Both fee tables are pairwise ordered this
way, which makes the first matching range the only matching one. -/
def rangeBelow (a b : FeeEntry) : Bool :=
  match a.range.maxHp with
  | some m => decide (m ≤ b.range.minHp)
  | none => false

/-- Bracket `a` lies strictly below bracket `b`: `a`'s upper bound is
finite and at most `b`'s lower bound. -/
def bracketBelow (a b : DutyBracket) : Bool :=
  match a.maxVol with
  | some m => decide (m ≤ b.minVol)
  | none => false

/-- `CustomsCalculator.get_recycling_fee` (bot.py lines 117–175): the
discount branch (volume ≤ 3.0 and hp ≤ 160) returns 3400 for age < 3 and
5200 for 3 ≤ age ≤ 5, and otherwise falls through to the general table. -/
def get_recycling_fee (engine_volume_l : ℚ) (hp age_years : Int) : Int :=
  if engine_volume_l ≤ 3 ∧ hp ≤ 160 then
    if age_years < 3 then 3400
    else if 3 ≤ age_years ∧ age_years ≤ 5 then 5200
    else general_recycling_fee engine_volume_l hp age_years
  else general_recycling_fee engine_volume_l hp age_years

/-! ### Rounding and the main calculation -/

/-- Python 3 `round` to the nearest integer, ties to even, on an exact
rational value. -/
def pyRound (q : ℚ) : Int :=
  if q - ⌊q⌋ < 1/2 then ⌊q⌋
  else if 1/2 < q - ⌊q⌋ then ⌊q⌋ + 1
  else if ⌊q⌋ % 2 = 0 then ⌊q⌋ else ⌊q⌋ + 1

/-- Which duty rule fired (the `duty_type` label of bot.py
lines 209/214/220/225). -/
inductive DutyType where
  | pct48_young
  | pct48_age_1_3
  | fixed_age_3_5
  | pct48_over_5
  deriving DecidableEq, Repr

/-- The result dictionary of `calculate_customs` (bot.py lines 229–243);
the formatted `manufacture_date` string is kept as the date value itself. -/
structure CalculationResult where
  purchase_price : ℚ
  currency : Currency
  vehicle_age_years : Int
  vehicle_age_months : Int
  engine_volume : ℚ
  horsepower : Int
  importer_type : List Char
  customs_duty : Int
  recycling_fee : Int
  total_payable : Int
  duty_type : DutyType
  rub_price : Int
  manufacture_date : Date
  deriving DecidableEq, Repr

/-- `CustomsCalculator.calculate_customs` (bot.py lines 177–243).
`today` is `date.today()`; a date string matching neither format falls
back to `today` (bot.py line 194) rather than failing. -/
def calculate_customs (rates : ExchangeRates) (today : Date)
    (purchase_price : ℚ) (currency : Currency)
    (manufacture_date_str : List Char) (engine_volume : ℚ) (hp : Int)
    (importer_type : List Char) : CalculationResult :=
  let rub_price := purchase_price * ratesGet rates currency
  let manufacture_date_obj := (parse_date manufacture_date_str).getD today
  let ages := calculate_age today manufacture_date_obj
  let age_years := ages.1
  let engine_volume_cm3 := engine_volume * 1000
  let recycling_fee := get_recycling_fee engine_volume hp age_years
  let customs_duty : ℚ :=
    if age_years < 1 then rub_price * (48/100)
    else if 1 ≤ age_years ∧ age_years ≤ 3 then rub_price * (48/100)
    else if 3 < age_years ∧ age_years ≤ 5 then
      get_duty_for_3_5_years engine_volume_cm3 * rates.eur
    else rub_price * (48/100)
  let duty_type : DutyType :=
    if age_years < 1 then .pct48_young
    else if 1 ≤ age_years ∧ age_years ≤ 3 then .pct48_age_1_3
    else if 3 < age_years ∧ age_years ≤ 5 then .fixed_age_3_5
    else .pct48_over_5
  let total := customs_duty + (recycling_fee : ℚ)
  { purchase_price := purchase_price
    currency := currency
    vehicle_age_years := age_years
    vehicle_age_months := ages.2
    engine_volume := engine_volume
    horsepower := hp
    importer_type := importer_type
    customs_duty := pyRound customs_duty
    recycling_fee := recycling_fee
    total_payable := pyRound total
    duty_type := duty_type
    rub_price := pyRound rub_price
    manufacture_date := manufacture_date_obj }

/-! ### The date-input validation step of the conversation flow -/

/-- Outcome of the `get_manufacture_date` handler for one date string. -/
inductive DateInputOutcome where
  | accepted (d : Date)
  | rejectedParse
  | rejectedFuture
  | rejectedTooOld
  deriving DecidableEq, Repr

/-- The validation performed by `get_manufacture_date` (bot.py
lines 466–506) before the date string is stored for the engine: parse in
either format (re-prompt on failure), reject a date strictly after today
(`date_obj > today`), reject a date whose year is more than 50 years back
(`date_obj.year < today.year - 50`). -/
def get_manufacture_date_check (today : Date) (s : List Char) : DateInputOutcome :=
  match parse_date s with
  | none => .rejectedParse
  | some date_obj =>
    if dateLt today date_obj then .rejectedFuture
    else if date_obj.year < today.year - 50 then .rejectedTooOld
    else .accepted date_obj

/-! ## Helper lemmas -/

/-- Adding an even integer to a rational commutes with banker's rounding
(the parity of the floor is preserved, so the tie-breaking direction is
unchanged). -/
lemma pyRound_add_int_of_even (q : ℚ) (n : Int) (hn : 2 ∣ n) :
    pyRound (q + n) = pyRound q + n := by
  unfold pyRound
  rw [Int.floor_add_int]
  have hr : q + (n : ℚ) - ((⌊q⌋ + n : Int) : ℚ) = q - (⌊q⌋ : ℚ) := by
    push_cast
    ring
  rw [hr]
  split_ifs <;> omega

/-- A hit of the range scan is an entry of the table. -/
lemma find_hp_entry_mem {hp : Int} {t : List FeeEntry} {e : FeeEntry}
    (h : find_hp_entry hp t = some e) : e ∈ t := by
  induction t with
  | nil => exact absurd h (by simp [find_hp_entry])
  | cons a t ih =>
    by_cases hc : hpInRange hp a.range
    · rw [find_hp_entry, if_pos hc] at h
      injection h with h
      exact h ▸ List.mem_cons_self a t
    · rw [find_hp_entry, if_neg hc] at h
      exact List.mem_cons_of_mem a (ih h)

/-- In a table whose ranges are pairwise ordered by `rangeBelow`, the scan
returns any (hence the unique) matching entry. -/
lemma find_hp_entry_eq_some {hp : Int} {t : List FeeEntry}
    (ht : List.Pairwise (fun a b => rangeBelow a b = true) t)
    {e : FeeEntry} (he : e ∈ t) (hm : hpInRange hp e.range) :
    find_hp_entry hp t = some e := by
  induction t with
  | nil => cases he
  | cons a t ih =>
    rw [find_hp_entry]
    rcases List.mem_cons.mp he with rfl | he2
    · rw [if_pos hm]
    · have ha : ¬ hpInRange hp a.range := by
        intro hma
        have hrel := (List.pairwise_cons.mp ht).1 e he2
        unfold rangeBelow at hrel
        rcases hmax : a.range.maxHp with _ | m
        · rw [hmax] at hrel
          simp at hrel
        · rw [hmax] at hrel
          simp only [decide_eq_true_eq] at hrel
          have h1 := hma.2 m hmax
          have h2 := hm.1
          omega
      rw [if_neg ha]
      exact ih (List.pairwise_cons.mp ht).2 he2

/-- If no range of the table matches, the scan misses. -/
lemma find_hp_entry_eq_none {hp : Int} {t : List FeeEntry}
    (h : ∀ e ∈ t, ¬ hpInRange hp e.range) : find_hp_entry hp t = none := by
  induction t with
  | nil => rfl
  | cons a t ih =>
    rw [find_hp_entry, if_neg (h a (List.mem_cons_self a t))]
    exact ih (fun e he => h e (List.mem_cons_of_mem a he))

/-- On an ordered table the lookup returns the fee pair of the matching
range. -/
lemma fee_table_lookup_of_match {t : List FeeEntry} {hp : Int} (age : Int)
    (ht : List.Pairwise (fun a b => rangeBelow a b = true) t)
    {e : FeeEntry} (he : e ∈ t) (hm : hpInRange hp e.range) :
    fee_table_lookup t hp age = entry_fee e age := by
  have hne : t ≠ [] := by
    rintro rfl
    cases he
  unfold fee_table_lookup
  rw [dif_neg hne, find_hp_entry_eq_some ht he hm]

/-- On a nonempty table missed by every range, the lookup falls back to the
last entry. -/
lemma fee_table_lookup_fallback {t : List FeeEntry} {hp : Int} (age : Int)
    (hne : t ≠ []) (h : ∀ e ∈ t, ¬ hpInRange hp e.range) :
    fee_table_lookup t hp age = entry_fee (t.getLast hne) age := by
  unfold fee_table_lookup
  rw [dif_neg hne, find_hp_entry_eq_none h]

/-- On a nonempty table the lookup always returns some entry's fee pair. -/
lemma fee_table_lookup_mem (t : List FeeEntry) (hp age : Int) (hne : t ≠ []) :
    ∃ e, e ∈ t ∧ fee_table_lookup t hp age = entry_fee e age := by
  unfold fee_table_lookup
  rw [dif_neg hne]
  cases hfind : find_hp_entry hp t with
  | some e => exact ⟨e, find_hp_entry_mem hfind, rfl⟩
  | none => exact ⟨t.getLast hne, List.getLast_mem hne, rfl⟩

/-- The general table always yields some entry of one of the two band
tables. -/
lemma general_recycling_fee_mem (v : ℚ) (hp age : Int) :
    ∃ e, (e ∈ recycling_table_1_2 ∨ e ∈ recycling_table_2_3) ∧
      general_recycling_fee v hp age = entry_fee e age := by
  unfold general_recycling_fee
  by_cases hv : v ≤ 2
  · rw [if_pos hv]
    obtain ⟨e, he, h⟩ := fee_table_lookup_mem recycling_table_1_2 hp age (by decide)
    exact ⟨e, Or.inl he, h⟩
  · rw [if_neg hv]
    obtain ⟨e, he, h⟩ := fee_table_lookup_mem recycling_table_2_3 hp age (by decide)
    exact ⟨e, Or.inr he, h⟩

/-- Both discount fees, both defaults and every table fee pair are even. -/
lemma entry_fee_even (e : FeeEntry) (age : Int)
    (he : e ∈ recycling_table_1_2 ∨ e ∈ recycling_table_2_3) :
    2 ∣ entry_fee e age := by
  unfold entry_fee
  rcases he with h | h <;> fin_cases h <;> split <;> decide

/-- No table fee pair coincides with the warning-logged defaults. -/
lemma entry_fee_ne_default (e : FeeEntry) (age : Int)
    (he : e ∈ recycling_table_1_2 ∨ e ∈ recycling_table_2_3) :
    entry_fee e age ≠ 20000 ∧ entry_fee e age ≠ 30000 := by
  unfold entry_fee
  rcases he with h | h <;> fin_cases h <;> split <;> exact ⟨by decide, by decide⟩

/-- When no discount case returns — the volume/hp condition fails, or the
age is over 5 — the fee is the general-table fee. -/
lemma get_recycling_fee_general (v : ℚ) (hp age : Int)
    (h : ¬(v ≤ 3 ∧ hp ≤ 160) ∨ 5 < age) :
    get_recycling_fee v hp age = general_recycling_fee v hp age := by
  unfold get_recycling_fee
  rcases h with h | h
  · rw [if_neg h]
  · split_ifs with h1 h2 h3
    · omega
    · omega
    · rfl
    · rfl

/-- The recycling fee is always even. -/
lemma get_recycling_fee_even (v : ℚ) (hp age : Int) :
    2 ∣ get_recycling_fee v hp age := by
  unfold get_recycling_fee
  split_ifs with h1 h2 h3
  · decide
  · decide
  · obtain ⟨e, he, h⟩ := general_recycling_fee_mem v hp age
    rw [h]
    exact entry_fee_even e age he
  · obtain ⟨e, he, h⟩ := general_recycling_fee_mem v hp age
    rw [h]
    exact entry_fee_even e age he

/-- A hit of the bracket scan with a matching bracket of an ordered list
returns that bracket's product. -/
lemma duty_scan_eq_of_mem {x : ℚ} {t : List DutyBracket}
    (ht : List.Pairwise (fun a b => bracketBelow a b = true) t)
    {b : DutyBracket} (hb : b ∈ t) (hx : volInBracket x b) :
    duty_scan x t = x * b.rate := by
  induction t with
  | nil => cases hb
  | cons a t ih =>
    rw [duty_scan]
    rcases List.mem_cons.mp hb with rfl | hb2
    · rw [if_pos hx]
    · have ha : ¬ volInBracket x a := by
        intro hxa
        have hrel := (List.pairwise_cons.mp ht).1 b hb2
        unfold bracketBelow at hrel
        rcases hmax : a.maxVol with _ | m
        · rw [hmax] at hrel
          simp at hrel
        · rw [hmax] at hrel
          simp only [decide_eq_true_eq] at hrel
          have h1 := hxa.2 m hmax
          have h2 := hx.1
          linarith
      rw [if_neg ha]
      exact ih (List.pairwise_cons.mp ht).2 hb2

/-- If no bracket contains the volume, the scan returns the final
`* 3.6` fallback. -/
lemma duty_scan_fallback {x : ℚ} {t : List DutyBracket}
    (h : ∀ b ∈ t, ¬ volInBracket x b) : duty_scan x t = x * (36/10) := by
  induction t with
  | nil => rfl
  | cons a t ih =>
    rw [duty_scan, if_neg (h a (List.mem_cons_self a t))]
    exact ih (fun b hb => h b (List.mem_cons_of_mem a hb))

/-! ## Claim theorems -/

/-- Claim C3: for every input, the result of `calculate_customs` satisfies
`total_payable = round(customs_duty) + recycling_fee`, where the
`customs_duty` field is the rounded duty and `recycling_fee` is the
unrounded integer table value.  This holds because every possible
recycling fee is an even number of rubles, so banker's rounding of
`duty + fee` splits into `round(duty) + fee`. -/
theorem total_payable_invariant (rates : ExchangeRates) (today : Date)
    (p : ℚ) (c : Currency) (s : List Char) (v : ℚ) (hp : Int)
    (i : List Char) :
    (calculate_customs rates today p c s v hp i).total_payable
      = (calculate_customs rates today p c s v hp i).customs_duty
        + (calculate_customs rates today p c s v hp i).recycling_fee := by
  simp only [calculate_customs]
  exact pyRound_add_int_of_even _ _ (get_recycling_fee_even _ _ _)

/-- Claim C4: with engine volume ≤ 3.0 L and horsepower ≤ 160, the
recycling fee is 3400 for age < 3 and 5200 for 3 ≤ age ≤ 5, short-circuiting
the general table; for age > 5 the discount does not return and the
function falls through to the general table. -/
theorem recycling_fee_discount_branch (v : ℚ) (hp age : Int)
    (hv : v ≤ 3) (hhp : hp ≤ 160) :
    (age < 3 → get_recycling_fee v hp age = 3400) ∧
    (3 ≤ age → age ≤ 5 → get_recycling_fee v hp age = 5200) ∧
    (5 < age → get_recycling_fee v hp age
        = general_recycling_fee v hp age) := by
  unfold get_recycling_fee
  refine ⟨fun h1 => ?_, fun h1 h2 => ?_, fun h1 => ?_⟩
  · rw [if_pos ⟨hv, hhp⟩, if_pos h1]
  · rw [if_pos ⟨hv, hhp⟩, if_neg (by omega), if_pos ⟨h1, h2⟩]
  · rw [if_pos ⟨hv, hhp⟩, if_neg (by omega), if_neg (by omega)]

/-- Witness for C4 at volume 2.0 L, 150 hp and ages 2 / 4 / 6. -/
theorem recycling_fee_discount_branch_witness :
    get_recycling_fee 2 150 2 = 3400 ∧
    get_recycling_fee 2 150 4 = 5200 ∧
    get_recycling_fee 2 150 6 = general_recycling_fee 2 150 6 := by
  refine ⟨?_, ?_, ?_⟩
  · exact (recycling_fee_discount_branch 2 150 2 (by decide) (by decide)).1
      (by decide)
  · exact (recycling_fee_discount_branch 2 150 4 (by decide) (by decide)).2.1
      (by decide) (by decide)
  · exact (recycling_fee_discount_branch 2 150 6 (by decide) (by decide)).2.2
      (by decide)

/-- Claim C9: for a fixed `today`, `calculate_age` is antitone in the
manufacture date — moving the manufacture date earlier never decreases the
derived count of full years (month fields are calendar-valid). -/
theorem calculate_age_monotone (today d1 d2 : Date)
    (h1lo : 1 ≤ d1.month) (h1hi : d1.month ≤ 12)
    (h2lo : 1 ≤ d2.month) (h2hi : d2.month ≤ 12)
    (h : dateLe d1 d2) :
    (calculate_age today d2).1 ≤ (calculate_age today d1).1 := by
  have hm : total_months_between today d2 ≤ total_months_between today d1 := by
    simp only [total_months_between]
    rcases h with h | rfl
    · rcases h with hy | ⟨hy, hmo | ⟨hmo, hd⟩⟩ <;> split_ifs <;> omega
    · exact le_refl _
  have hdiv := Int.ediv_le_ediv (by norm_num : (0 : Int) < 12) hm
  simpa [calculate_age] using hdiv

/-- Witness for C9: an earlier manufacture date yields at least as many
full years. -/
theorem calculate_age_monotone_witness :
    (calculate_age ⟨2026, 10, 12⟩ ⟨2022, 5, 15⟩).1
      ≤ (calculate_age ⟨2026, 10, 12⟩ ⟨2020, 1, 1⟩).1 :=
  calculate_age_monotone ⟨2026, 10, 12⟩ ⟨2020, 1, 1⟩ ⟨2022, 5, 15⟩
    (by decide) (by decide) (by decide) (by decide) (by decide)

/-- Claim C5: whenever the derived age is under 1 year, between 1 and 3
years inclusive, or over 5 years, the duty is 48% of the converted invoice
price; only the over-3-through-5-years band computes the duty from the
volume-rate table instead. -/
theorem duty_flat_48_bands (rates : ExchangeRates) (today : Date) (p : ℚ)
    (c : Currency) (s : List Char) (v : ℚ) (hp : Int) (i : List Char)
    (res : CalculationResult)
    (hres : res = calculate_customs rates today p c s v hp i) :
    (res.vehicle_age_years < 1 ∨
        (1 ≤ res.vehicle_age_years ∧ res.vehicle_age_years ≤ 3) ∨
        5 < res.vehicle_age_years →
      res.customs_duty = pyRound (p * ratesGet rates c * (48/100))) ∧
    (3 < res.vehicle_age_years → res.vehicle_age_years ≤ 5 →
      res.customs_duty
        = pyRound (get_duty_for_3_5_years (v * 1000) * rates.eur)) := by
  subst hres
  simp only [calculate_customs]
  constructor
  · intro h
    split_ifs with h1 h2 h3
    · rfl
    · rfl
    · exfalso
      rcases h with h | h | h <;> omega
    · rfl
  · intro h1 h2
    split_ifs with g1 g2 g3
    · omega
    · omega
    · rfl
    · omega

/-- Witness for C5: a two-year-old car pays 48% of the converted invoice
price. -/
theorem duty_flat_48_bands_witness :
    (calculate_customs default_exchange_rates ⟨2026, 1, 1⟩ 20000 .USD
        ("2024-01-01".toList) 2 150 ("x".toList)).customs_duty
      = pyRound (20000 * ratesGet default_exchange_rates .USD * (48/100)) := by
  exact (duty_flat_48_bands default_exchange_rates ⟨2026, 1, 1⟩ 20000 .USD
    ("2024-01-01".toList) 2 150 ("x".toList) _ rfl).1 (by decide)

/-- Claim C6: for a derived age in the over-3-through-5-years band, the
duty converts the volume to cm³ (× 1000), multiplies by the EUR-per-cm³
rate of the bracket whose `(minVol, maxVol]` interval contains it (lower
bound exclusive, upper bound inclusive), and converts the EUR amount to
RUB at the current EUR rate; a volume contained in no bracket yields the
highest bracket's rate 3.6 as fallback rather than a failure. -/
theorem duty_3_5_bracket_lookup (rates : ExchangeRates) (today : Date)
    (p : ℚ) (c : Currency) (s : List Char) (v : ℚ) (hp : Int)
    (i : List Char) (res : CalculationResult)
    (hres : res = calculate_customs rates today p c s v hp i) :
    (3 < res.vehicle_age_years → res.vehicle_age_years ≤ 5 →
      res.customs_duty
        = pyRound (get_duty_for_3_5_years (v * 1000) * rates.eur)) ∧
    (∀ (x : ℚ) (b : DutyBracket), b ∈ duty_rates_3_5_years →
      volInBracket x b → get_duty_for_3_5_years x = x * b.rate) ∧
    (∀ x : ℚ, (∀ b ∈ duty_rates_3_5_years, ¬ volInBracket x b) →
      get_duty_for_3_5_years x = x * (36/10)) := by
  refine ⟨?_, ?_, ?_⟩
  · subst hres
    simp only [calculate_customs]
    intro h1 h2
    split_ifs with g1 g2 g3
    · omega
    · omega
    · rfl
    · omega
  · intro x b hb hx
    exact duty_scan_eq_of_mem (by decide) hb hx
  · intro x hx
    exact duty_scan_fallback hx

/-- Witness for C6: a four-year-old car's duty uses the volume-rate table;
1800 cm³ falls in the `(1500, 1800]` bracket at rate 2.5; a non-positive
volume is contained in no bracket and gets the 3.6 fallback. -/
theorem duty_3_5_bracket_lookup_witness :
    (calculate_customs default_exchange_rates ⟨2026, 6, 1⟩ 15000 .EUR
        ("2022-01-01".toList) (18/10) 140 ("x".toList)).customs_duty
      = pyRound (get_duty_for_3_5_years ((18/10) * 1000)
          * default_exchange_rates.eur) ∧
    get_duty_for_3_5_years 1800 = 1800 * (25/10) ∧
    get_duty_for_3_5_years 0 = 0 * (36/10) := by
  have h := duty_3_5_bracket_lookup default_exchange_rates ⟨2026, 6, 1⟩
    15000 .EUR ("2022-01-01".toList) (18/10) 140 ("x".toList) _ rfl
  refine ⟨h.1 (by decide) (by decide), ?_, ?_⟩
  · exact h.2.1 1800 ⟨1500, some 1800, 25/10⟩
      (by simp [duty_rates_3_5_years]) (by decide)
  · exact h.2.2 0 (by decide)

/-- Claim C7: in the general table the first horsepower range with
`minHP ≤ hp < maxHP` is selected (lower bound inclusive, upper bound
exclusive), horsepower exactly at an upper bound selects the next range
(hp 190 at volume 1.5 L, age 2 takes the `(190, 220)` fee, not the
`(160, 190)` one), and horsepower exceeding every upper bound falls back
to the table's highest range. -/
theorem recycling_fee_hp_range_selection (v : ℚ) (hp age : Int)
    (hhp : 160 < hp) :
    (v ≤ 2 → ∀ e, e ∈ recycling_table_1_2 → hpInRange hp e.range →
        get_recycling_fee v hp age = entry_fee e age) ∧
    (¬(v ≤ 2) → ∀ e, e ∈ recycling_table_2_3 → hpInRange hp e.range →
        get_recycling_fee v hp age = entry_fee e age) ∧
    (v ≤ 2 → 340 ≤ hp →
        get_recycling_fee v hp age
          = entry_fee ⟨⟨310, some 340⟩, 1459200, 2203200⟩ age) ∧
    get_recycling_fee (3/2) 190 2 = 952000 := by
  have hnd : ¬(v ≤ 3 ∧ hp ≤ 160) := fun hc => by omega
  refine ⟨fun hv e he hm => ?_, fun hv e he hm => ?_, fun hv h340 => ?_, ?_⟩
  · rw [get_recycling_fee_general v hp age (Or.inl hnd)]
    unfold general_recycling_fee
    rw [if_pos hv]
    exact fee_table_lookup_of_match age (by decide) he hm
  · rw [get_recycling_fee_general v hp age (Or.inl hnd)]
    unfold general_recycling_fee
    rw [if_neg hv]
    exact fee_table_lookup_of_match age (by decide) he hm
  · rw [get_recycling_fee_general v hp age (Or.inl hnd)]
    unfold general_recycling_fee
    rw [if_pos hv]
    have hnone : ∀ e ∈ recycling_table_1_2, ¬ hpInRange hp e.range := by
      intro e he hme
      fin_cases he <;> exact absurd (hme.2 _ rfl) (by omega)
    rw [fee_table_lookup_fallback age (by decide) hnone]
    rfl
  · rw [get_recycling_fee_general (3/2) 190 2 (Or.inl (fun hc => by omega))]
    unfold general_recycling_fee
    rw [if_pos (by norm_num)]
    rw [fee_table_lookup_of_match 2 (by decide)
      (show (⟨⟨190, some 220⟩, 952000, 1584000⟩ : FeeEntry)
          ∈ recycling_table_1_2 by decide)
      (by decide)]
    rfl

/-- Witness for C7: hp 165 in `(160, 190)` of the 1.0–2.0 band table; hp
400 exceeding every upper bound of that table takes the `(310, 340)` fee
pair. -/
theorem recycling_fee_hp_range_selection_witness :
    get_recycling_fee 2 165 6
        = entry_fee ⟨⟨160, some 190⟩, 900000, 1492800⟩ 6 ∧
    get_recycling_fee 2 400 6
        = entry_fee ⟨⟨310, some 340⟩, 1459200, 2203200⟩ 6 := by
  constructor
  · exact (recycling_fee_hp_range_selection 2 165 6 (by decide)).1 (by decide)
      ⟨⟨160, some 190⟩, 900000, 1492800⟩ (by decide) (by decide)
  · exact (recycling_fee_hp_range_selection 2 400 6 (by decide)).2.2.1
      (by decide) (by decide)

/-- Claim C10 counterexample: at volume 2.0 L (the 1.0–2.0 band), hp 100
and age 6 the fallback fee is 2203200 — the `(310, 340)` range's over-3
fee — not 4572000, the over-3 fee of the 500-and-above range named by the
claim. -/
theorem recycling_fee_low_hp_counterexample :
    get_recycling_fee 2 100 6 = 2203200 ∧ (2203200 : Int) ≠ 4572000 := by
  exact ⟨by decide, by decide⟩

/-- Claim C10 as amended: horsepower below every range's lower bound with
the discount branch not returning falls back to the selected band table's
highest range — `(310, 340)` for the 1.0–2.0 band, `(500, ∞)` for the
2.0–3.0 band — never a low-power fee and never the fixed default. -/
theorem recycling_fee_low_hp_fallback (v : ℚ) (hp age : Int)
    (hhp : hp < 160) (hfall : 5 < age ∨ 3 < v) :
    (v ≤ 2 → get_recycling_fee v hp age
        = entry_fee ⟨⟨310, some 340⟩, 1459200, 2203200⟩ age) ∧
    (¬(v ≤ 2) → get_recycling_fee v hp age
        = entry_fee ⟨⟨500, none⟩, 3448800, 4572000⟩ age) ∧
    get_recycling_fee v hp age ≠ 20000 ∧
    get_recycling_fee v hp age ≠ 30000 := by
  have hgen : get_recycling_fee v hp age = general_recycling_fee v hp age := by
    rcases hfall with h | h
    · exact get_recycling_fee_general v hp age (Or.inr h)
    · refine get_recycling_fee_general v hp age (Or.inl ?_)
      intro hc
      linarith [hc.1]
  have hmin12 : ∀ e ∈ recycling_table_1_2, 160 ≤ e.range.minHp := by decide
  have hmin23 : ∀ e ∈ recycling_table_2_3, 160 ≤ e.range.minHp := by decide
  have hnone12 : ∀ e ∈ recycling_table_1_2, ¬ hpInRange hp e.range :=
    fun e he hme => absurd (le_trans (hmin12 e he) hme.1) (by omega)
  have hnone23 : ∀ e ∈ recycling_table_2_3, ¬ hpInRange hp e.range :=
    fun e he hme => absurd (le_trans (hmin23 e he) hme.1) (by omega)
  refine ⟨fun hv => ?_, fun hv => ?_, ?_⟩
  · rw [hgen]
    unfold general_recycling_fee
    rw [if_pos hv, fee_table_lookup_fallback age (by decide) hnone12]
    rfl
  · rw [hgen]
    unfold general_recycling_fee
    rw [if_neg hv, fee_table_lookup_fallback age (by decide) hnone23]
    rfl
  · rw [hgen]
    obtain ⟨e, he, heq⟩ := general_recycling_fee_mem v hp age
    rw [heq]
    exact entry_fee_ne_default e age he

/-- Witness for C10 as amended: volume 2.0 L, hp 100, age 6 takes the
`(310, 340)` fee pair of the 1.0–2.0 band table. -/
theorem recycling_fee_low_hp_fallback_witness :
    get_recycling_fee 2 100 6
      = entry_fee ⟨⟨310, some 340⟩, 1459200, 2203200⟩ 6 := by
  exact (recycling_fee_low_hp_fallback 2 100 6 (by decide)
    (Or.inl (by decide))).1 (by decide)

/-- Claim C2 counterexample: a volume of 1.0 L (≤ 1.0) with hp 200 and
age 6 returns 1584000 — the `(190, 220)` over-3 fee of the 1.0–2.0 band
table — not the claimed warning-logged default 30000. -/
theorem recycling_fee_low_volume_counterexample :
    get_recycling_fee 1 200 6 = 1584000 ∧ (1584000 : Int) ≠ 30000 := by
  exact ⟨by decide, by decide⟩

/-- Claim C2 as amended: when no discount case returns, volumes ≤ 1.0 L
are served by the 1.0–2.0 band table (the code files every volume ≤ 2.0
there) and volumes > 3.0 L by the 2.0–3.0 band table (every volume > 2.0);
the warning-logged default (20000 / 30000) is never returned, because both
band tables are nonempty. -/
theorem recycling_fee_uncovered_volume_bands (v : ℚ) (hp age : Int)
    (hd : ¬(v ≤ 3 ∧ hp ≤ 160) ∨ 5 < age) :
    (v ≤ 1 → ∃ e, e ∈ recycling_table_1_2 ∧
        get_recycling_fee v hp age = entry_fee e age) ∧
    (3 < v → ∃ e, e ∈ recycling_table_2_3 ∧
        get_recycling_fee v hp age = entry_fee e age) ∧
    get_recycling_fee v hp age ≠ 20000 ∧
    get_recycling_fee v hp age ≠ 30000 := by
  have hgen := get_recycling_fee_general v hp age hd
  refine ⟨fun hv => ?_, fun hv => ?_, ?_⟩
  · rw [hgen]
    unfold general_recycling_fee
    rw [if_pos (by linarith)]
    exact fee_table_lookup_mem recycling_table_1_2 hp age (by decide)
  · rw [hgen]
    unfold general_recycling_fee
    rw [if_neg (by linarith)]
    exact fee_table_lookup_mem recycling_table_2_3 hp age (by decide)
  · rw [hgen]
    obtain ⟨e, he, heq⟩ := general_recycling_fee_mem v hp age
    rw [heq]
    exact entry_fee_ne_default e age he

/-- Witness for C2 as amended: volume 1.0 L, hp 200, age 6 is served by an
entry of the 1.0–2.0 band table. -/
theorem recycling_fee_uncovered_volume_bands_witness :
    ∃ e, e ∈ recycling_table_1_2 ∧
      get_recycling_fee 1 200 6 = entry_fee e 6 := by
  exact (recycling_fee_uncovered_volume_bands 1 200 6
    (Or.inl (by decide))).1 (by decide)

/-- Claim C1 counterexample: the date string "hello" matches neither
format, yet `calculate_customs` does not fail — it substitutes today's
date (age 0) and produces a complete monetary result. -/
theorem customs_parse_fallback_counterexample :
    parse_date ("hello".toList) = none ∧
    calculate_customs default_exchange_rates ⟨2026, 1, 1⟩ 20000 .USD
        ("hello".toList) 2 150 ("x".toList) =
      { purchase_price := 20000
        currency := .USD
        vehicle_age_years := 0
        vehicle_age_months := 0
        engine_volume := 2
        horsepower := 150
        importer_type := ['x']
        customs_duty := 739200
        recycling_fee := 3400
        total_payable := 742600
        duty_type := .pct48_young
        rub_price := 1540000
        manufacture_date := ⟨2026, 1, 1⟩ } := by
  constructor
  · decide
  · have h1 : parse_date ("hello".toList) = none := by decide
    have h2 : calculate_age ⟨2026, 1, 1⟩ ⟨2026, 1, 1⟩ = (0, 0) := by decide
    have h3 : get_recycling_fee 2 150 0 = 3400 := by decide
    simp only [calculate_customs, h1, Option.getD_none, h2, h3, ratesGet,
      default_exchange_rates]
    norm_num [pyRound]

/-- Claim C1 as amended: on a date string matching neither format the
engine does not fail — it substitutes today's date (deriving age 0 years
0 months) and computes the full result, with the duty from the under-1-year
48% rule; rejection of malformed dates happens only in the date-input
handler, which re-prompts before the engine is called. -/
theorem customs_malformed_date_uses_today (rates : ExchangeRates)
    (today : Date) (p : ℚ) (c : Currency) (v : ℚ) (hp : Int)
    (i : List Char) (s : List Char) (h : parse_date s = none) :
    (calculate_customs rates today p c s v hp i).manufacture_date = today ∧
    (calculate_customs rates today p c s v hp i).vehicle_age_years = 0 ∧
    (calculate_customs rates today p c s v hp i).vehicle_age_months = 0 ∧
    (calculate_customs rates today p c s v hp i).customs_duty
      = pyRound (p * ratesGet rates c * (48/100)) ∧
    (calculate_customs rates today p c s v hp i).recycling_fee
      = get_recycling_fee v hp 0 ∧
    get_manufacture_date_check today s = .rejectedParse := by
  have hage : calculate_age today today = (0, 0) := by
    simp [calculate_age, total_months_between]
  have hres : calculate_customs rates today p c s v hp i =
      { purchase_price := p
        currency := c
        vehicle_age_years := 0
        vehicle_age_months := 0
        engine_volume := v
        horsepower := hp
        importer_type := i
        customs_duty := pyRound (p * ratesGet rates c * (48/100))
        recycling_fee := get_recycling_fee v hp 0
        total_payable := pyRound (p * ratesGet rates c * (48/100)
          + (get_recycling_fee v hp 0 : ℚ))
        duty_type := .pct48_young
        rub_price := pyRound (p * ratesGet rates c)
        manufacture_date := today } := by
    simp only [calculate_customs, h, Option.getD_none, hage]
    norm_num
  rw [hres]
  refine ⟨rfl, rfl, rfl, rfl, rfl, ?_⟩
  simp only [get_manufacture_date_check, h]

/-- Witness for C1 as amended, on the unparseable string "hello". -/
theorem customs_malformed_date_uses_today_witness :
    (calculate_customs default_exchange_rates ⟨2026, 1, 1⟩ 20000 .USD
        ("hello".toList) 2 150 ("x".toList)).vehicle_age_years = 0 ∧
    get_manufacture_date_check ⟨2026, 1, 1⟩ ("hello".toList)
      = .rejectedParse := by
  have h := customs_malformed_date_uses_today default_exchange_rates
    ⟨2026, 1, 1⟩ 20000 .USD 2 150 ("x".toList) ("hello".toList) (by decide)
  exact ⟨h.2.1, h.2.2.2.2.2⟩

/-- Claim C8 counterexample: with today = 2026-10-12 the manufacture date
1976-01-01 lies 50 years and 9 months in the past — strictly more than 50
years — yet the input step accepts it, because the check compares calendar
years only (`date_obj.year < today.year - 50`). -/
theorem manufacture_date_50y_counterexample :
    (calculate_age ⟨2026, 10, 12⟩ ⟨1976, 1, 1⟩).1 = 50 ∧
    (calculate_age ⟨2026, 10, 12⟩ ⟨1976, 1, 1⟩).2 = 9 ∧
    get_manufacture_date_check ⟨2026, 10, 12⟩ ("1976-01-01".toList)
      = .accepted ⟨1976, 1, 1⟩ := by
  exact ⟨by decide, by decide, by decide⟩

/-- Claim C8 as amended: the date-input step rejects, before any
computation, every parsed manufacture date strictly in the future and
every date whose calendar year is more than 50 years before today's year;
any accepted date is parsed, not in the future and within 50 calendar
years. -/
theorem manufacture_date_validation (today : Date) (s : List Char) :
    (∀ d, parse_date s = some d → dateLt today d →
        get_manufacture_date_check today s = .rejectedFuture) ∧
    (∀ d, parse_date s = some d → ¬ dateLt today d →
        d.year < today.year - 50 →
        get_manufacture_date_check today s = .rejectedTooOld) ∧
    (∀ d, get_manufacture_date_check today s = .accepted d →
        parse_date s = some d ∧ ¬ dateLt today d ∧
          today.year - 50 ≤ d.year) := by
  refine ⟨fun d hd hfut => ?_, fun d hd hnf hold => ?_, fun d hacc => ?_⟩
  · simp only [get_manufacture_date_check, hd]
    rw [if_pos hfut]
  · simp only [get_manufacture_date_check, hd]
    rw [if_neg hnf, if_pos hold]
  · cases hparse : parse_date s with
    | none =>
      simp only [get_manufacture_date_check, hparse] at hacc
      cases hacc
    | some d0 =>
      simp only [get_manufacture_date_check, hparse] at hacc
      split_ifs at hacc with h1 h2
      injection hacc with h3
      subst h3
      exact ⟨rfl, h1, by omega⟩

/-- Witness for C8 as amended: a future date and a 51-calendar-years-old
date are both rejected. -/
theorem manufacture_date_validation_witness :
    get_manufacture_date_check ⟨2026, 10, 12⟩ ("2027-01-01".toList)
      = .rejectedFuture ∧
    get_manufacture_date_check ⟨2026, 10, 12⟩ ("1975-12-31".toList)
      = .rejectedTooOld := by
  refine ⟨?_, ?_⟩
  · exact (manufacture_date_validation ⟨2026, 10, 12⟩
      ("2027-01-01".toList)).1 ⟨2027, 1, 1⟩ (by decide) (by decide)
  · exact (manufacture_date_validation ⟨2026, 10, 12⟩
      ("1975-12-31".toList)).2.1 ⟨1975, 12, 31⟩ (by decide) (by decide)
      (by decide)

end CustomsBot
